import Mathlib

/-
  Verification development for the retail-order cleaning and analytics
  pipeline implemented in `scripts/load_clean.py` and `scripts/analysis.py`.

  Strings are modelled as `List Char` (`Str`), mirroring Python's sequences
  of Unicode code points.  Python floats are idealised as exact rationals
  (`ℚ`); a missing value (`NaN` / `None` / `NaT`) is modelled with `Option`.
  Each definition carries a comment pointing to the source lines it embeds.
-/

/-- Python strings as lists of characters. -/
abbrev Str := List Char

/-- Python `str.strip()` (default whitespace stripping at both ends). -/
def stripStr (s : Str) : Str :=
  ((s.dropWhile Char.isWhitespace).reverse.dropWhile Char.isWhitespace).reverse

/-- Python `str.lower()`.  The currency tokens scanned for are ASCII, and
`Char.toLower` agrees with Python on ASCII letters. -/
def toLowerStr (s : Str) : Str := s.map Char.toLower

/-- Python's substring test `pat in s`. -/
def hasSubstr (pat : Str) : Str → Bool
  | [] => pat.isEmpty
  | c :: rest => pat.isPrefixOf (c :: rest) || hasSubstr pat rest

/-- Fuel-indexed worker for `replaceAll`.  Each step consumes at least one
character of the input, so fuel `s.length` always suffices. -/
def replaceAllAux (pat rep : Str) : ℕ → Str → Str
  | _, [] => []
  | 0, s => s
  | fuel + 1, c :: rest =>
    if !pat.isEmpty && pat.isPrefixOf (c :: rest) then
      rep ++ replaceAllAux pat rep fuel ((c :: rest).drop pat.length)
    else
      c :: replaceAllAux pat rep fuel rest

/-- Python `str.replace(pat, rep)`: replace every non-overlapping occurrence
of `pat`, scanning left to right. -/
def replaceAll (pat rep s : Str) : Str := replaceAllAux pat rep s.length s

/-- `str.replace("¢", ".")` — the cent sign used as a decimal separator. -/
def mapCent (s : Str) : Str := s.map fun c => if c = '¢' then '.' else c

/-- `str.replace(",", ".")` — the comma used as a decimal separator. -/
def mapComma (s : Str) : Str := s.map fun c => if c = ',' then '.' else c

/-- Numeric value of a digit string (the integer denoted by ASCII digits). -/
def digitsVal (s : Str) : ℕ := s.foldl (fun a c => 10 * a + (c.toNat - 48)) 0

/-- The rational denoted by an integer part `ip` and a fractional part `fp`
(both ASCII digit strings), i.e. the value Python's `float` assigns to
`ip ++ "." ++ fp` (and to `ip` alone when `fp = []`). -/
def matchToRat (ip fp : Str) : ℚ :=
  (digitsVal ip : ℚ) + (digitsVal fp : ℚ) / (10 : ℚ) ^ fp.length

/-- Leftmost match of the regex `\d+(\.\d+)?` (`re.search` in
`load_clean.price_to_usd`, line 98): skip to the first digit, take the
maximal digit run, then a dot followed by a further digit run if present.
Returns the integer and fractional digit runs of the match. -/
def firstNumber : Str → Option (Str × Str)
  | [] => none
  | c :: rest =>
    if c.isDigit then
      match (c :: rest).dropWhile Char.isDigit with
      | '.' :: d :: ds =>
        if d.isDigit then
          some ((c :: rest).takeWhile Char.isDigit, (d :: ds).takeWhile Char.isDigit)
        else
          some ((c :: rest).takeWhile Char.isDigit, [])
      | _ => some ((c :: rest).takeWhile Char.isDigit, [])
    else firstNumber rest

/-- Split a string at every `'.'` (used to model Python `float`'s view of a
candidate numeral). -/
def splitOnDot : Str → List Str
  | [] => [[]]
  | c :: rest =>
    if c = '.' then [] :: splitOnDot rest
    else
      match splitOnDot rest with
      | [] => [[c]]
      | p :: ps => (c :: p) :: ps

/-- Python `float(s)` restricted to the numerals reachable in
`analysis._parse_price_to_usd` (digit runs joined by dots): succeeds exactly
when at most one dot is present and some digit exists, else `ValueError`
(modelled as `none`). -/
def pyFloat (s : Str) : Option ℚ :=
  match splitOnDot s with
  | [a] =>
    if !a.isEmpty && a.all Char.isDigit then some (matchToRat a []) else none
  | [a, b] =>
    if (!a.isEmpty || !b.isEmpty) && a.all Char.isDigit && b.all Char.isDigit then
      some (matchToRat a b)
    else none
  | _ => none

/-- Code-point lexicographic `≤` on strings, as used by Python's `<` / `sorted`. -/
def lexLeB : Str → Str → Bool
  | [], _ => true
  | _ :: _, [] => false
  | a :: s, b :: t => if a = b then lexLeB s t else decide (a < b)

/-- The ordering Python's `sorted` uses on strings. -/
def strLe (a b : Str) : Prop := lexLeB a b = true

instance : DecidableRel strLe :=
  fun a b => inferInstanceAs (Decidable (lexLeB a b = true))

/-- pandas `Series.unique()`: distinct values in order of first appearance. -/
def pdUniqueAux {α : Type} [DecidableEq α] (seen : List α) : List α → List α
  | [] => []
  | a :: l => if a ∈ seen then pdUniqueAux seen l else a :: pdUniqueAux (a :: seen) l

/-- pandas `Series.unique().tolist()` on a list of values. -/
def pdUnique {α : Type} [DecidableEq α] (l : List α) : List α := pdUniqueAux [] l

/-- pandas `groupby` key order: the distinct keys, sorted ascending. -/
def sortedStrs (l : List Str) : List Str := List.insertionSort strLe l.dedup

/-- pandas `groupby` key order for dates (modelled as naturals). -/
def sortedDates (l : List ℕ) : List ℕ :=
  List.insertionSort (fun a b => a ≤ b) l.dedup

/-- Descending-by-revenue comparison used to model
`sort_values("paid_price", ascending=False)`.  pandas' unstable quicksort is
modelled by a fixed deterministic (stable) sort; every theorem below uses
only that the sort is a deterministic function of its input list. -/
def descRev {α : Type} (a b : α × ℚ) : Prop := b.2 ≤ a.2

instance {α : Type} : DecidableRel (@descRev α) :=
  fun a b => inferInstanceAs (Decidable (b.2 ≤ a.2))

namespace LoadClean

/-- `load_clean.py` line 10: the fixed EUR→USD conversion rate 1.08. -/
def EUR_TO_USD : ℚ := 27 / 25

/-- `load_clean.price_to_usd` lines 81-82: `is_usd = "usd" in lower or "$" in s`
(the argument is the stripped input string). -/
def detectUSD (s : Str) : Bool :=
  hasSubstr "usd".toList (toLowerStr s) || hasSubstr "$".toList s

/-- `load_clean.price_to_usd` line 83: `is_eur = "eur" in lower or "€" in s`. -/
def detectEUR (s : Str) : Bool :=
  hasSubstr "eur".toList (toLowerStr s) || hasSubstr "€".toList s

/-- `load_clean.price_to_usd` lines 85-92: strip the literal currency tokens
`"USD"`, `"usd"`, `"EUR"`, `"eur"`, `"$"`, `"€"` in that order. -/
def stripCurrencyTokens (s : Str) : Str :=
  replaceAll "€".toList []
    (replaceAll "$".toList []
      (replaceAll "eur".toList []
        (replaceAll "EUR".toList []
          (replaceAll "usd".toList []
            (replaceAll "USD".toList [] s)))))

/-- `load_clean.price_to_usd` lines 85-96: the cleaned string handed to the
numeric regex — currency tokens stripped, then `¢` and `,` turned into dots. -/
def cleanedNumeric (s : Str) : Str := mapComma (mapCent (stripCurrencyTokens s))

/-- `load_clean.price_to_usd` lines 74-102, numeric part: `None` for a
missing/empty input, else the value of the first `\d+(\.\d+)?` match in the
cleaned string (`None` when no digit remains). -/
def extractAmount (raw : Str) : Option ℚ :=
  let s := stripStr raw
  if s.isEmpty then none
  else
    match firstNumber (cleanedNumeric s) with
    | none => none
    | some (ip, fp) => some (matchToRat ip fp)

/-- `load_clean.price_to_usd` lines 72-112.  The rebinding of `is_eur` at
lines 104-105 (the EUR default) is kept, but — exactly as in the source —
the final branch at lines 107-110 reads only `is_usd`, so the rebinding is
dead: a USD token yields the amount unchanged, anything else converts at
`EUR_TO_USD`. -/
def price_to_usd (raw : Str) : Option ℚ :=
  let s := stripStr raw
  let is_usd := detectUSD s
  let is_eur := detectEUR s
  match extractAmount raw with
  | none => none
  | some amount =>
    let is_eur := if !is_usd && !is_eur then true else is_eur
    if is_usd then some amount
    else
      let _ := is_eur
      some (amount * EUR_TO_USD)

/-- Result of `parse_timestamp`: a parsed instant or the `NaT` sentinel. -/
inductive TsResult (T : Type) where
  | nat
  | ok (t : T)
deriving DecidableEq

/-- The two external `pd.to_datetime(..., errors="raise")` invocations of
`load_clean.parse_timestamp` (lines 56 and 62), abstracted as oracles that
either return a timestamp or raise (`Except.error`). -/
structure PandasToDatetime (T : Type) where
  strict : Str → Except Str T
  dayfirst : Str → Except Str T

/-- `load_clean.parse_timestamp` lines 47-67: `NaT` on a missing input, else
try the strict parse of the cleaned string, on failure retry with
`dayfirst=True`, on failure return `NaT`.  The pure normalisation
`clean_timestamp` (lines 15-44) is abstracted as a parameter `clean`; the
claim this models concerns only the fallback structure. -/
def parse_timestamp {T : Type} (pdt : PandasToDatetime T) (clean : Str → Str) :
    Option Str → TsResult T
  | none => TsResult.nat
  | some raw =>
    match pdt.strict (clean raw) with
    | Except.ok t => TsResult.ok t
    | Except.error _ =>
      match pdt.dayfirst (clean raw) with
      | Except.ok t => TsResult.ok t
      | Except.error _ => TsResult.nat

/-- A dataset directory, as the list of filenames it contains. -/
structure Dir where
  files : List Str
deriving DecidableEq

/-- The existence checks of `load_and_clean`: first pattern in the list that
names an existing file. -/
def findFirst (pats : List Str) (d : Dir) : Option Str :=
  pats.find? fun p => d.files.contains p

/-- `load_clean.load_and_clean` lines 162-167: orders source discovery,
trying `orders.parquet` then `orders.csv`. -/
def locateOrders (d : Dir) : Option Str :=
  findFirst ["orders.parquet".toList, "orders.csv".toList] d

/-- `load_clean.load_and_clean` lines 177-182: users source discovery,
trying `users.csv` then `users.parquet`. -/
def locateUsers (d : Dir) : Option Str :=
  findFirst ["users.csv".toList, "users.parquet".toList] d

/-- `load_clean.load_books` lines 118-123: books source discovery — the
books file is optional, `load_books` returns an empty table when absent. -/
def locateBooks (d : Dir) : Option Str :=
  findFirst ["books.yaml".toList, "books.yml".toList, "books.csv".toList,
    "books.parquet".toList] d

/-- `load_clean.load_and_clean` lines 161-189: source discovery with the two
`FileNotFoundError` raises — orders missing (line 169) and users missing
(line 184).  Books are never consulted here. -/
def load_sources (d : Dir) : Except Str (Str × Str) :=
  match locateOrders d with
  | none => Except.error "No orders file found".toList
  | some o =>
    match locateUsers d with
    | none => Except.error "No users file found".toList
    | some u => Except.ok (o, u)

/-- The orders table schema (column names, already stripped/lowercased as in
line 197). -/
structure OrdersTable where
  cols : List Str
deriving DecidableEq

/-- `load_clean.load_and_clean` line 199: the required order columns. -/
def requiredCols : List Str :=
  ["id".toList, "user_id".toList, "book_id".toList, "quantity".toList,
    "unit_price".toList, "timestamp".toList]

/-- A Python value as seen by `process_dataset`: either a DataFrame (which
has a `.columns` attribute) or a plain dict (which does not). -/
inductive PyVal where
  | dataFrame (cols : List Str)
  | pyDict (keys : List Str)
deriving DecidableEq

/-- Attribute access `obj.columns`: succeeds on a DataFrame, raises
`AttributeError` on a dict. -/
def getattrColumns : PyVal → Except Str (List Str)
  | PyVal.dataFrame cols => Except.ok cols
  | PyVal.pyDict _ => Except.error "AttributeError".toList

/-- `load_clean.load_and_clean` lines 314-322: the keys of the dict the
function returns on success. -/
def resultKeys : List Str :=
  ["orders".toList, "top5_days".toList, "unique_users".toList,
    "has_author_info".toList, "unique_author_sets".toList,
    "most_popular_authors".toList, "best_buyer".toList]

/-- `load_clean.load_and_clean`, outer shape (lines 158-202 and 314-322):
discover sources, check the required order columns (lines 199-202), and on
success return a *dict* of named results. -/
def load_and_clean_ret (d : Dir) (t : OrdersTable) : Except Str PyVal :=
  match load_sources d with
  | Except.error e => Except.error e
  | Except.ok _ =>
    if requiredCols.all (fun c => t.cols.contains c) then
      Except.ok (PyVal.pyDict resultKeys)
    else
      Except.error "Missing columns in orders".toList

/-- `load_clean.load_and_clean` lines 217-221: quantity cleaning
`pd.to_numeric(..., errors="coerce").fillna(0).astype(int)` — a missing or
unparseable quantity becomes 0 (the input is the coerced numeric value). -/
def cleanQuantity (q : Option ℤ) : ℤ := q.getD 0

/-- `load_clean.load_and_clean` line 227: `paid_price = quantity *
unit_price_usd` (`NaN` propagates from a missing unit price). -/
def paid_price (qty : ℤ) (price : Option ℚ) : Option ℚ :=
  price.map fun p => (qty : ℚ) * p

/-- `load_clean.load_books` lines 145-151: the `author_set` column is the
raw author text `astype(str).str.strip()` with the string `"nan"` (the
stringified missing value) mapped back to missing. -/
def author_set (author : Option Str) : Option Str :=
  let t := stripStr (match author with | none => "nan".toList | some s => s)
  if t = "nan".toList then none else some t

/-- One row of the unified order table produced by `load_and_clean`:
calendar date (dates modelled as naturals), stringified raw user id,
canonical buyer key (`user_key`), and the possibly-missing paid amount. -/
structure Row where
  date : ℕ
  uid : Str
  key : Str
  paid : Option ℚ
deriving DecidableEq

/-- `load_clean.load_and_clean` lines 230-243, per-order key choice: with an
`email` column, `email.where(email.notna(), user_id.astype(str))` after the
left merge; without one, the stringified raw id. -/
def lookupEmail (dir : List (Str × Option Str)) (uid : Str) : Option Str :=
  match dir.find? (fun e => e.1 == uid) with
  | some e => e.2
  | none => none

/-- The canonical buyer key for one order (`hasEmail` records whether the
users table has an `email` column). -/
def user_key (hasEmail : Bool) (dir : List (Str × Option Str)) (uid : Str) : Str :=
  if hasEmail then (lookupEmail dir uid).getD uid else uid

/-- `load_clean.load_and_clean` lines 300-306: the alias list recorded for a
key — the distinct stringified raw user ids of the rows with that key, in
order of first appearance (`Series.unique()`), *not* sorted. -/
def aliasesLC (rows : List Row) (k : Str) : List Str :=
  pdUnique ((rows.filter fun r => r.key == k).map Row.uid)

/-- `load_clean.load_and_clean` lines 250-253 (`groupby("date").sum` with
`min_count=1`): the revenue of a date — `NaN` (`none`) when the date has no
non-missing paid amount, else the sum of the non-missing ones. -/
def groupSumLC (rows : List Row) (d : ℕ) : Option ℚ :=
  let vals := (rows.filter fun r => r.date == d).filterMap Row.paid
  if vals.isEmpty then none else some vals.sum

/-- `load_clean.load_and_clean` lines 250-253 after `.dropna`: one
(date, revenue) pair per distinct date that has a non-missing sum. -/
def validPairs (rows : List Row) : List (ℕ × ℚ) :=
  (sortedDates (rows.map Row.date)).filterMap fun d =>
    (groupSumLC rows d).map fun v => (d, v)

/-- `load_clean.load_and_clean` lines 249-256: `daily_rev` — group by date,
drop all-missing dates, sort descending by revenue, keep the first 5. -/
def top5LC (rows : List Row) : List (ℕ × ℚ) :=
  (List.insertionSort descRev (validPairs rows)).take 5

/-- `load_clean.load_and_clean` lines 288-293: buyer revenue — rows with a
missing paid amount are dropped, the rest grouped by `user_key`. -/
def buyerKeysLC (rows : List Row) : List Str :=
  sortedStrs ((rows.filter fun r => r.paid.isSome).map Row.key)

/-- Total paid amount of one buyer key (over the rows surviving `dropna`). -/
def paidSumLC (rows : List Row) (k : Str) : ℚ :=
  (((rows.filter fun r => r.paid.isSome).filter fun r => r.key == k).filterMap
    Row.paid).sum

/-- The `buyer_rev` table of lines 288-293 (keys in groupby order, each with
its revenue), before the descending sort. -/
def buyerRevLC (rows : List Row) : List (Str × ℚ) :=
  (buyerKeysLC rows).map fun k => (k, paidSumLC rows k)

/-- `load_clean.load_and_clean` lines 287-312: the best buyer — head of the
revenue table sorted descending, together with its (appearance-ordered)
alias list. -/
def bestBuyerLC (rows : List Row) : Option (Str × ℚ × List Str) :=
  match List.insertionSort descRev (buyerRevLC rows) with
  | [] => none
  | kv :: _ => some (kv.1, kv.2, aliasesLC rows kv.1)

end LoadClean

namespace Analysis

/-- `analysis.py` line 16: the fixed EUR→USD conversion rate 1.1. -/
def EUR_TO_USD : ℚ := 11 / 10

/-- `analysis._parse_price_to_usd` lines 36-42: the currency is EUR exactly
when an EUR token (`"eur"` or `"€"`, checked in the lowercased string) is
present; both the `elif` USD branch and the final `else` yield USD, so the
default for token-free input is USD and EUR wins when both tokens occur. -/
def detectEUR (s : Str) : Bool :=
  hasSubstr "eur".toList (toLowerStr s) || hasSubstr "€".toList (toLowerStr s)

/-- One maximal match of the regex `\d+(?:[.,]\d+)?` starting at the head of
`s` (which is assumed to start with a digit): the digit run, extended by a
`.`/`,` separator and a second digit run when present. -/
def numToken (s : Str) : Str :=
  match s.dropWhile Char.isDigit with
  | sep :: d :: _ =>
    if (sep = '.' || sep = ',') && d.isDigit then
      s.takeWhile Char.isDigit ++
        sep :: ((s.dropWhile Char.isDigit).tail.takeWhile Char.isDigit)
    else s.takeWhile Char.isDigit
  | _ => s.takeWhile Char.isDigit

/-- Fuel-indexed worker for `findallNums`; each step consumes at least one
character, so fuel `s.length` suffices. -/
def findallNumsAux : ℕ → Str → List Str
  | _, [] => []
  | 0, _ => []
  | fuel + 1, c :: rest =>
    if c.isDigit then
      numToken (c :: rest) ::
        findallNumsAux fuel ((c :: rest).drop (numToken (c :: rest)).length)
    else
      findallNumsAux fuel rest

/-- `analysis._parse_price_to_usd` line 48: `re.findall(r"\d+(?:[.,]\d+)?", s)`
— all non-overlapping matches, left to right. -/
def findallNums (s : Str) : List Str := findallNumsAux s.length s

/-- `analysis._parse_price_to_usd` lines 44-62, numeric part: replace `¢` by
a dot, find all number chunks, keep a single chunk as is or join the first
two with a dot (chunks beyond the second are ignored), replace commas by
dots, and run Python `float` (a `ValueError` yields `None`). -/
def extractNum (value : Str) : Option ℚ :=
  let s := stripStr value
  if s.isEmpty then none
  else
    match findallNums (mapCent s) with
    | [] => none
    | [n] => pyFloat (mapComma n)
    | n1 :: n2 :: _ => pyFloat (mapComma (n1 ++ '.' :: n2))

/-- `analysis._parse_price_to_usd` lines 19-67: currency detection followed
by numeric extraction; an EUR-classified amount is multiplied by the 1.1
rate, anything else is returned unchanged (USD). -/
def parse_price_to_usd (value : Str) : Option ℚ :=
  let s := stripStr value
  let currencyEUR := detectEUR s
  match extractNum value with
  | none => none
  | some amount =>
    if currencyEUR then some (amount * EUR_TO_USD) else some amount

/-- Fuel-indexed worker for `splitAuthors`; a separator match consumes at
least one character, so fuel `s.length` suffices. -/
def splitAuthorsAux : ℕ → Str → List Str
  | _, [] => [[]]
  | 0, s => [s]
  | fuel + 1, c :: rest =>
    if c = ',' || c = '&' then
      [] :: splitAuthorsAux fuel rest
    else if " and ".toList.isPrefixOf (c :: rest) then
      [] :: splitAuthorsAux fuel ((c :: rest).drop 5)
    else
      match splitAuthorsAux fuel rest with
      | [] => [[c]]
      | p :: ps => (c :: p) :: ps

/-- `analysis._normalize_authors` line 88: `re.split(r",|&| and ", s)` — at
each position the alternatives `","`, `"&"`, `" and "` are tried in order
(their first characters are distinct, so this is a straight scan). -/
def splitAuthors (s : Str) : List Str := splitAuthorsAux s.length s

/-- `analysis._normalize_authors` line 89, inner comprehension: the split
parts, stripped, with empties discarded. -/
def cleanParts (s : Str) : List Str :=
  ((splitAuthors s).map stripStr).filter fun p => !p.isEmpty

/-- Python `sorted(set(...))` on strings: distinct values in code-point
lexicographic order. -/
def sortedDedupStr (l : List Str) : List Str :=
  List.insertionSort strLe l.dedup

/-- `analysis._normalize_authors` lines 73-94: `None` for missing/blank
input, else the sorted, de-duplicated, `"; "`-joined stripped split parts
(`None` again if no nonempty part remains). -/
def normalize_authors (author : Str) : Option Str :=
  let s := stripStr author
  if s.isEmpty then none
  else
    let names := sortedDedupStr (cleanParts s)
    if names.isEmpty then none
    else some (List.intercalate "; ".toList names)

/-- One row of the order table as `process_dataset` rebuilds it (lines
169-194 of `analysis.py`): date, stringified raw user id, buyer key, the
recomputed optional unit price in USD, and the 0-filled quantity. -/
structure RowA where
  date : ℕ
  uid : Str
  key : Str
  price : Option ℚ
  quantity : ℚ
deriving DecidableEq

/-- `analysis.process_dataset` lines 193-194: `paid_price = unit_price_usd *
quantity` followed by `.fillna(0.0)` — a missing price makes the paid amount
0, not missing. -/
def paidA (r : RowA) : ℚ :=
  (r.price.map fun p => p * r.quantity).getD 0

/-- `analysis.process_dataset` lines 200-205: daily revenue — group by date
and sum the (already 0-filled) paid amounts; every distinct date of the
table appears, none is dropped. -/
def dailyRevA (rows : List RowA) : List (ℕ × ℚ) :=
  (sortedDates (rows.map RowA.date)).map fun d =>
    (d, ((rows.filter fun r => r.date == d).map paidA).sum)

/-- `analysis.process_dataset` lines 208-210: the daily revenue rows sorted
descending by revenue, first 5. -/
def top5A (rows : List RowA) : List (ℕ × ℚ) :=
  (List.insertionSort descRev (dailyRevA rows)).take 5

/-- `analysis.process_dataset` lines 256-265: the alias list of a key — the
distinct stringified raw user ids of the rows with that key, sorted
(`sorted(aliases)`). -/
def aliasesSortedA (rows : List RowA) (k : Str) : List Str :=
  List.insertionSort strLe (pdUnique ((rows.filter fun r => r.key == k).map RowA.uid))

/-- Total paid amount of one buyer key across all rows. -/
def paidSumA (rows : List RowA) (k : Str) : ℚ :=
  ((rows.filter fun r => r.key == k).map paidA).sum

/-- `analysis.process_dataset` lines 241-246: the `user_rev` table — one row
per distinct key (groupby order), with its total paid amount. -/
def buyerRevA (rows : List RowA) : List (Str × ℚ) :=
  (sortedStrs (rows.map RowA.key)).map fun k => (k, paidSumA rows k)

/-- `analysis.process_dataset` lines 239-271: the best buyer — head of the
revenue table sorted descending, with its sorted alias list. -/
def bestBuyerA (rows : List RowA) : Option (Str × ℚ × List Str) :=
  match List.insertionSort descRev (buyerRevA rows) with
  | [] => none
  | kv :: _ => some (kv.1, kv.2, aliasesSortedA rows kv.1)

/-- `analysis.process_dataset` lines 154-176: call `load_and_clean`, `.copy()`
the result, then immediately evaluate `"timestamp" in df.columns` — an
attribute access that raises `AttributeError` on the dict the loader
returns.  Execution can never reach the later steps for a successful load,
so they are irrelevant to the modelled behaviour and elided. -/
def process_dataset (d : LoadClean.Dir) (t : LoadClean.OrdersTable) :
    Except Str Unit :=
  match LoadClean.load_and_clean_ret d t with
  | Except.error e => Except.error e
  | Except.ok df =>
    match LoadClean.getattrColumns df with
    | Except.error e => Except.error e
    | Except.ok _ => Except.ok ()

end Analysis

/-- The numeric-extraction rule exactly as the specification words it
(claim C2), stated for comparison with the implementations: strip currency
tokens, turn `¢` and `,` into dots, *remove every remaining non-digit
non-dot character*, and if more than one dot remains join all segments but
the last as the integer part with the last as the fractional part. -/
def claimedNumericExtract (s : Str) : Option ℚ :=
  let kept := (LoadClean.cleanedNumeric (stripStr s)).filter fun c =>
    c.isDigit || c = '.'
  if kept.all (fun c => !c.isDigit) then none
  else
    match splitOnDot kept with
    | [a] => some (matchToRat a [])
    | segs => some (matchToRat segs.dropLast.flatten (segs.getLast?.getD []))

/-- Whether an `Except` computation succeeded (no exception escaped). -/
def exceptIsOk {ε α : Type} : Except ε α → Bool
  | Except.ok _ => true
  | Except.error _ => false

/-- Claim C6's concrete input: a single order on date 0 whose unit price did
not parse (`price = none`), quantity 1. -/
def exRowA6 : Analysis.RowA := ⟨0, "u".toList, "k".toList, none, 1⟩

/-- Claim C6's concrete input on the `load_clean` side: the same order after
`load_and_clean`'s cleaning, with a missing paid amount. -/
def exRowL6 : LoadClean.Row := ⟨0, "u".toList, "k".toList, none⟩

/-- Claim C8's user directory: ids 1 and 2 both carry secondary identifier
`a@x.com`. -/
def exDir8 : List (Str × Option Str) :=
  [("1".toList, some "a@x.com".toList), ("2".toList, some "a@x.com".toList)]

/-- Claim C8: an order of raw user id 1 resolved to key `a@x.com`. -/
def exRowA8a : Analysis.RowA := ⟨0, "1".toList, "a@x.com".toList, some 1, 1⟩

/-- Claim C8: an order of raw user id 2 resolved to key `a@x.com`. -/
def exRowA8b : Analysis.RowA := ⟨0, "2".toList, "a@x.com".toList, some 1, 1⟩

/-- Claim C8, `load_clean` side: raw id 2 first, then raw id 1, both on the
same canonical key. -/
def exRowL8a : LoadClean.Row := ⟨0, "2".toList, "a@x.com".toList, some 1⟩

/-- Claim C8, `load_clean` side, second row (raw id 1). -/
def exRowL8b : LoadClean.Row := ⟨0, "1".toList, "a@x.com".toList, some 1⟩

/-- Claim C9: an order of raw id 1, key `k`, paid amount 5. -/
def exRowL9a : LoadClean.Row := ⟨0, "1".toList, "k".toList, some 5⟩

/-- Claim C9: an order of raw id 2, key `k`, missing paid amount. -/
def exRowL9b : LoadClean.Row := ⟨0, "2".toList, "k".toList, none⟩

/-- Claim C9, analysis side: an order of raw id 1, key `k`, price 5. -/
def exRowA9a : Analysis.RowA := ⟨0, "1".toList, "k".toList, some 5, 1⟩

/-- Claim C9, analysis side: an order of raw id 2, key `k`, missing price. -/
def exRowA9b : Analysis.RowA := ⟨0, "2".toList, "k".toList, none, 1⟩

theorem strLe_total : ∀ a b : Str, strLe a b ∨ strLe b a := by
  intro a
  induction a with
  | nil => intro b; left; rfl
  | cons x s ih =>
    intro b
    cases b with
    | nil => right; rfl
    | cons y t =>
      by_cases hxy : x = y
      · subst hxy
        rcases ih t with h | h
        · left; simpa [strLe, lexLeB] using h
        · right; simpa [strLe, lexLeB] using h
      · rcases lt_or_gt_of_ne hxy with h | h
        · left; simp [strLe, lexLeB, hxy, h]
        · right; simp [strLe, lexLeB, Ne.symm hxy, h]

theorem strLe_trans : ∀ a b c : Str, strLe a b → strLe b c → strLe a c := by
  intro a
  induction a with
  | nil => intro b c _ _; rfl
  | cons x s ih =>
    intro b c hab hbc
    cases b with
    | nil => simp [strLe, lexLeB] at hab
    | cons y t =>
      cases c with
      | nil => simp [strLe, lexLeB] at hbc
      | cons z u =>
        by_cases hxy : x = y <;> by_cases hyz : y = z
        · subst hxy; subst hyz
          simp only [strLe, lexLeB, if_pos rfl] at hab hbc ⊢
          exact ih t u hab hbc
        · subst hxy
          simp only [strLe, lexLeB, if_pos rfl, if_neg hyz] at hab hbc ⊢
          exact hbc
        · subst hyz
          simp only [strLe, lexLeB, if_neg hxy] at hab ⊢
          exact hab
        · simp only [strLe, lexLeB, if_neg hxy, if_neg hyz,
            decide_eq_true_eq] at hab hbc
          have hxz : x < z := lt_trans hab hbc
          simp [strLe, lexLeB, ne_of_lt hxz, hxz]

theorem strLe_antisymm : ∀ a b : Str, strLe a b → strLe b a → a = b := by
  intro a
  induction a with
  | nil =>
    intro b _ hba
    cases b with
    | nil => rfl
    | cons y t => simp [strLe, lexLeB] at hba
  | cons x s ih =>
    intro b hab hba
    cases b with
    | nil => simp [strLe, lexLeB] at hab
    | cons y t =>
      by_cases hxy : x = y
      · subst hxy
        simp only [strLe, lexLeB, if_pos rfl] at hab hba
        exact congrArg (x :: ·) (ih t hab hba)
      · simp only [strLe, lexLeB, if_neg hxy, if_neg (Ne.symm hxy),
          decide_eq_true_eq] at hab hba
        exact absurd hba (lt_asymm hab)

instance : IsTotal Str strLe := ⟨strLe_total⟩

instance : IsTrans Str strLe := ⟨strLe_trans⟩

instance : IsAntisymm Str strLe := ⟨strLe_antisymm⟩

theorem mem_pdUniqueAux {α : Type} [DecidableEq α] (x : α) :
    ∀ (l seen : List α), x ∈ pdUniqueAux seen l ↔ x ∈ l ∧ x ∉ seen := by
  intro l
  induction l with
  | nil => intro seen; simp [pdUniqueAux]
  | cons a l ih =>
    intro seen
    by_cases ha : a ∈ seen
    · rw [show pdUniqueAux seen (a :: l) = pdUniqueAux seen l from by
        simp [pdUniqueAux, ha], ih]
      constructor
      · rintro ⟨hx, hs⟩; exact ⟨List.mem_cons_of_mem a hx, hs⟩
      · rintro ⟨hx, hs⟩
        rcases List.mem_cons.mp hx with rfl | hx'
        · exact absurd ha hs
        · exact ⟨hx', hs⟩
    · rw [show pdUniqueAux seen (a :: l) = a :: pdUniqueAux (a :: seen) l from by
        simp [pdUniqueAux, ha]]
      constructor
      · intro hmem
        rcases List.mem_cons.mp hmem with rfl | hx'
        · exact ⟨List.mem_cons_self x l, ha⟩
        · have h2 := (ih (a :: seen)).mp hx'
          refine ⟨List.mem_cons_of_mem a h2.1, fun hmem2 => ?_⟩
          exact h2.2 (List.mem_cons_of_mem a hmem2)
      · rintro ⟨hx, hs⟩
        rcases List.mem_cons.mp hx with rfl | hx'
        · exact List.mem_cons_self x _
        · by_cases hxa : x = a
          · subst hxa; exact List.mem_cons_self x _
          · refine List.mem_cons_of_mem a ((ih (a :: seen)).mpr ⟨hx', ?_⟩)
            intro hmem2
            rcases List.mem_cons.mp hmem2 with h | h
            · exact hxa h
            · exact hs h

theorem mem_pdUnique {α : Type} [DecidableEq α] (x : α) (l : List α) :
    x ∈ pdUnique l ↔ x ∈ l := by
  simp [pdUnique, mem_pdUniqueAux]

theorem nodup_pdUniqueAux {α : Type} [DecidableEq α] :
    ∀ (l seen : List α), (pdUniqueAux seen l).Nodup := by
  intro l
  induction l with
  | nil => intro seen; simp [pdUniqueAux]
  | cons a l ih =>
    intro seen
    by_cases ha : a ∈ seen
    · simpa [pdUniqueAux, if_pos ha] using ih seen
    · rw [show pdUniqueAux seen (a :: l) = a :: pdUniqueAux (a :: seen) l from by
        simp [pdUniqueAux, ha]]
      refine List.Nodup.cons ?_ (ih (a :: seen))
      intro hmem
      have h2 := (mem_pdUniqueAux a l (a :: seen)).mp hmem
      exact h2.2 (List.mem_cons_self a seen)

theorem nodup_pdUnique {α : Type} [DecidableEq α] (l : List α) :
    (pdUnique l).Nodup := nodup_pdUniqueAux l []

theorem pdUnique_perm {α : Type} [DecidableEq α] {l l' : List α}
    (h : List.Perm l l') : List.Perm (pdUnique l) (pdUnique l') := by
  refine (List.perm_ext_iff_of_nodup (nodup_pdUnique l) (nodup_pdUnique l')).mpr ?_
  intro a
  simp [mem_pdUnique, h.mem_iff]

/-- Sorting equal-up-to-permutation string lists gives equal results
(`strLe` is total, transitive and antisymmetric). -/
theorem insertionSort_strLe_eq_of_perm {l l' : List Str} (h : List.Perm l l') :
    List.insertionSort strLe l = List.insertionSort strLe l' :=
  List.eq_of_perm_of_sorted
    ((List.perm_insertionSort strLe l).trans
      (h.trans (List.perm_insertionSort strLe l').symm))
    (List.sorted_insertionSort strLe l) (List.sorted_insertionSort strLe l')

theorem sortedStrs_perm_eq {l l' : List Str} (h : List.Perm l l') :
    sortedStrs l = sortedStrs l' :=
  insertionSort_strLe_eq_of_perm h.dedup

instance {α : Type} : IsTotal (α × ℚ) descRev :=
  ⟨fun a b => (le_total b.2 a.2).imp (fun h => h) (fun h => h)⟩

instance {α : Type} : IsTrans (α × ℚ) descRev :=
  ⟨fun _ _ _ hab hbc => le_trans hbc hab⟩

theorem paidSumA_perm_eq {rows rows' : List Analysis.RowA}
    (h : List.Perm rows rows') (k : Str) :
    Analysis.paidSumA rows k = Analysis.paidSumA rows' k := by
  unfold Analysis.paidSumA
  exact ((h.filter (fun r => r.key == k)).map Analysis.paidA).sum_eq

theorem buyerRevA_perm_eq {rows rows' : List Analysis.RowA}
    (h : List.Perm rows rows') :
    Analysis.buyerRevA rows = Analysis.buyerRevA rows' := by
  unfold Analysis.buyerRevA
  rw [sortedStrs_perm_eq (h.map Analysis.RowA.key)]
  exact List.map_congr_left fun k _ => by rw [paidSumA_perm_eq h k]

theorem aliasesSortedA_perm_eq {rows rows' : List Analysis.RowA}
    (h : List.Perm rows rows') (k : Str) :
    Analysis.aliasesSortedA rows k = Analysis.aliasesSortedA rows' k :=
  insertionSort_strLe_eq_of_perm
    (pdUnique_perm ((h.filter (fun r => r.key == k)).map Analysis.RowA.uid))

theorem paidSumLC_perm_eq {rows rows' : List LoadClean.Row}
    (h : List.Perm rows rows') (k : Str) :
    LoadClean.paidSumLC rows k = LoadClean.paidSumLC rows' k := by
  unfold LoadClean.paidSumLC
  exact (((h.filter (fun r => r.paid.isSome)).filter (fun r => r.key == k)).filterMap
    LoadClean.Row.paid).sum_eq

theorem buyerRevLC_perm_eq {rows rows' : List LoadClean.Row}
    (h : List.Perm rows rows') :
    LoadClean.buyerRevLC rows = LoadClean.buyerRevLC rows' := by
  unfold LoadClean.buyerRevLC LoadClean.buyerKeysLC
  rw [sortedStrs_perm_eq ((h.filter (fun r => r.paid.isSome)).map LoadClean.Row.key)]
  exact List.map_congr_left fun k _ => by rw [paidSumLC_perm_eq h k]

theorem matchToRat_eval (ip fp : Str) (a b n : ℕ) (hip : digitsVal ip = a)
    (hfp : digitsVal fp = b) (hn : fp.length = n) :
    matchToRat ip fp = (a : ℚ) + (b : ℚ) / (10 : ℚ) ^ n := by
  rw [matchToRat, hip, hfp, hn]

theorem matchToRat_five : matchToRat "5".toList [] = 5 := by
  rw [matchToRat, show digitsVal "5".toList = 5 from by decide,
    show digitsVal ([] : Str) = 0 from rfl]
  norm_num

/-- Claim C1 (corrected).  The stated policy — EUR default, USD priority —
is refuted by `analysis._parse_price_to_usd`: the input `"5"` carries no
currency token yet is returned unconverted (treated as USD, not EUR), and
`"usd eur 5"` carries both tokens yet is converted at the EUR rate (EUR, not
USD, takes priority). -/
theorem C1_counterexample :
    Analysis.parse_price_to_usd "5".toList = some (matchToRat "5".toList []) ∧
    Analysis.parse_price_to_usd "usd eur 5".toList
      = some (matchToRat "5".toList [] * Analysis.EUR_TO_USD) ∧
    matchToRat "5".toList [] ≠ matchToRat "5".toList [] * Analysis.EUR_TO_USD := by
  refine ⟨rfl, rfl, ?_⟩
  rw [matchToRat_five, Analysis.EUR_TO_USD]
  norm_num

/-- Claim C1 as amended: in `load_clean.price_to_usd` the claim holds — no
USD token means the amount is converted at the EUR rate (so the default
currency is EUR, and USD wins when both tokens are present); in
`analysis._parse_price_to_usd` the policy is reversed — an EUR token forces
EUR (even when a USD token is also present) and its absence forces USD (the
default there is USD). -/
theorem C1_amended_currency_policy (raw : Str) :
    (LoadClean.detectUSD (stripStr raw) = false →
      LoadClean.price_to_usd raw
        = (LoadClean.extractAmount raw).map fun a => a * LoadClean.EUR_TO_USD) ∧
    (LoadClean.detectUSD (stripStr raw) = true →
      LoadClean.price_to_usd raw = LoadClean.extractAmount raw) ∧
    (Analysis.detectEUR (stripStr raw) = true →
      Analysis.parse_price_to_usd raw
        = (Analysis.extractNum raw).map fun a => a * Analysis.EUR_TO_USD) ∧
    (Analysis.detectEUR (stripStr raw) = false →
      Analysis.parse_price_to_usd raw = Analysis.extractNum raw) := by
  refine ⟨?_, ?_, ?_, ?_⟩ <;> intro h
  · cases hE : LoadClean.extractAmount raw <;>
      simp [LoadClean.price_to_usd, h, hE]
  · cases hE : LoadClean.extractAmount raw <;>
      simp [LoadClean.price_to_usd, h, hE]
  · cases hE : Analysis.extractNum raw <;>
      simp [Analysis.parse_price_to_usd, h, hE]
  · cases hE : Analysis.extractNum raw <;>
      simp [Analysis.parse_price_to_usd, h, hE]

/-- Witness for C1: the two policies evaluated at the token-free input `"5"`. -/
theorem C1_amended_currency_policy_witness :
    LoadClean.price_to_usd "5".toList
      = (LoadClean.extractAmount "5".toList).map fun a => a * LoadClean.EUR_TO_USD :=
  (C1_amended_currency_policy "5".toList).1 rfl

/-- Claim C2 (corrected).  The claimed remove-and-join extraction is refuted
on `"1 2"`: the claim's rule removes the space and reads 12, while
`load_clean.price_to_usd` takes only the first regex match and reads 1. -/
theorem C2_counterexample :
    LoadClean.extractAmount "1 2".toList = some (matchToRat "1".toList []) ∧
    claimedNumericExtract "1 2".toList = some (matchToRat "12".toList []) ∧
    matchToRat "1".toList [] ≠ matchToRat "12".toList [] := by
  refine ⟨rfl, rfl, ?_⟩
  rw [matchToRat_eval "1".toList [] 1 0 0 (by decide) rfl rfl,
    matchToRat_eval "12".toList [] 12 0 0 (by decide) rfl rfl]
  norm_num

/-- Claim C2 as amended: after currency-token stripping, `¢` and `,` do
become dots, but the amount is the *first* `\d+(\.\d+)?` match of the
cleaned string in `load_clean` (later digits are ignored, not joined), while
`analysis` joins the first *two* digit chunks with a dot (ignoring the
rest); `"43¢75"` extracts as 43.75 in both implementations. -/
theorem C2_amended_numeric_extraction :
    (∀ s ip fp, firstNumber (LoadClean.cleanedNumeric (stripStr s)) = some (ip, fp) →
      LoadClean.extractAmount s = some (matchToRat ip fp)) ∧
    (∀ s, firstNumber (LoadClean.cleanedNumeric (stripStr s)) = none →
      LoadClean.extractAmount s = none) ∧
    LoadClean.extractAmount "43¢75".toList
      = some (matchToRat "43".toList "75".toList) ∧
    Analysis.extractNum "43¢75".toList
      = some (matchToRat "43".toList "75".toList) ∧
    Analysis.extractNum "1 2".toList = some (matchToRat "1".toList "2".toList) ∧
    matchToRat "43".toList "75".toList = 4375 / 100 := by
  refine ⟨?_, ?_, rfl, rfl, rfl, ?_⟩
  · intro s ip fp h
    by_cases he : (stripStr s).isEmpty
    · exfalso
      rw [List.isEmpty_iff.mp he] at h
      simp [LoadClean.cleanedNumeric, LoadClean.stripCurrencyTokens, replaceAll,
        replaceAllAux, mapCent, mapComma, firstNumber] at h
    · simp [LoadClean.extractAmount, he, h]
  · intro s h
    by_cases he : (stripStr s).isEmpty
    · simp [LoadClean.extractAmount, he]
    · simp [LoadClean.extractAmount, he, h]
  · rw [matchToRat_eval "43".toList "75".toList 43 75 2 (by decide) (by decide) rfl]
    norm_num

/-- Witness for C2: the extraction rule applied at `"43¢75"`. -/
theorem C2_amended_numeric_extraction_witness :
    LoadClean.extractAmount "43¢75".toList
      = some (matchToRat "43".toList "75".toList) :=
  C2_amended_numeric_extraction.1 "43¢75".toList "43".toList "75".toList rfl

/-- Claim C3 (confirmed).  `parse_timestamp` is total — both raising parser
invocations are wrapped in `try/except` — and follows exactly the claimed
three-stage policy: `NaT` for a missing input; the strict parse of the
cleaned string when it succeeds; otherwise the day-first retry when it
succeeds; otherwise the `NaT` sentinel instead of an exception. -/
theorem C3_timestamp_two_pass_total {T : Type} (pdt : LoadClean.PandasToDatetime T)
    (clean : Str → Str) (ts : Option Str) :
    (ts = none → LoadClean.parse_timestamp pdt clean ts = LoadClean.TsResult.nat) ∧
    (∀ raw t, ts = some raw → pdt.strict (clean raw) = Except.ok t →
      LoadClean.parse_timestamp pdt clean ts = LoadClean.TsResult.ok t) ∧
    (∀ raw e t, ts = some raw → pdt.strict (clean raw) = Except.error e →
      pdt.dayfirst (clean raw) = Except.ok t →
      LoadClean.parse_timestamp pdt clean ts = LoadClean.TsResult.ok t) ∧
    (∀ raw e e', ts = some raw → pdt.strict (clean raw) = Except.error e →
      pdt.dayfirst (clean raw) = Except.error e' →
      LoadClean.parse_timestamp pdt clean ts = LoadClean.TsResult.nat) := by
  refine ⟨?_, ?_, ?_, ?_⟩
  · rintro rfl; rfl
  · rintro raw t rfl h
    simp [LoadClean.parse_timestamp, h]
  · rintro raw e t rfl h1 h2
    simp [LoadClean.parse_timestamp, h1, h2]
  · rintro raw e e' rfl h1 h2
    simp [LoadClean.parse_timestamp, h1, h2]

/-- Witness for C3: with both parser passes failing, the sentinel — not an
exception — is produced. -/
theorem C3_timestamp_two_pass_total_witness :
    LoadClean.parse_timestamp
      (⟨fun _ => Except.error "err".toList, fun _ => Except.error "err".toList⟩ :
        LoadClean.PandasToDatetime ℕ)
      (fun s => s) (some "x".toList) = LoadClean.TsResult.nat :=
  (C3_timestamp_two_pass_total _ _ _).2.2.2 "x".toList "err".toList "err".toList
    rfl rfl rfl

/-- Claim C4 (corrected).  A directory holding an orders source but no users
source does *not* load: `load_and_clean` raises `FileNotFoundError` for the
missing users file (lines 183-184), so the users source is required, not
optional. -/
theorem C4_counterexample :
    LoadClean.locateOrders ⟨["orders.csv".toList]⟩ = some "orders.csv".toList ∧
    LoadClean.load_sources ⟨["orders.csv".toList]⟩
      = Except.error "No users file found".toList := ⟨rfl, rfl⟩

/-- Claim C4 as amended: source discovery succeeds exactly when both an
orders source *and* a users source exist (each reported with its own
missing-file error), and the full load succeeds exactly when additionally
the required order columns are present; the books source never participates
in these checks (it alone is optional). -/
theorem C4_amended_required_sources (d : LoadClean.Dir) (t : LoadClean.OrdersTable) :
    (exceptIsOk (LoadClean.load_sources d)
      = ((LoadClean.locateOrders d).isSome && (LoadClean.locateUsers d).isSome)) ∧
    (LoadClean.locateOrders d = none →
      LoadClean.load_sources d = Except.error "No orders file found".toList) ∧
    (∀ o, LoadClean.locateOrders d = some o → LoadClean.locateUsers d = none →
      LoadClean.load_sources d = Except.error "No users file found".toList) ∧
    (exceptIsOk (LoadClean.load_and_clean_ret d t)
      = ((LoadClean.locateOrders d).isSome && (LoadClean.locateUsers d).isSome
          && LoadClean.requiredCols.all fun c => t.cols.contains c)) := by
  refine ⟨?_, ?_, ?_, ?_⟩
  · cases h1 : LoadClean.locateOrders d <;> cases h2 : LoadClean.locateUsers d <;>
      simp [LoadClean.load_sources, h1, h2, exceptIsOk]
  · intro h1
    simp [LoadClean.load_sources, h1]
  · intro o h1 h2
    simp [LoadClean.load_sources, h1, h2]
  · cases h1 : LoadClean.locateOrders d with
    | none =>
      simp [LoadClean.load_and_clean_ret, LoadClean.load_sources, h1, exceptIsOk]
    | some o =>
      cases h2 : LoadClean.locateUsers d with
      | none =>
        simp [LoadClean.load_and_clean_ret, LoadClean.load_sources, h1, h2,
          exceptIsOk]
      | some u =>
        have hok : LoadClean.load_sources d = Except.ok (o, u) := by
          simp [LoadClean.load_sources, h1, h2]
        cases h3 : LoadClean.requiredCols.all fun c => t.cols.contains c
        · simp only [LoadClean.load_and_clean_ret, hok, h3]
          simp [exceptIsOk, h1, h2, h3]
        · simp only [LoadClean.load_and_clean_ret, hok, h3]
          simp [exceptIsOk, h1, h2, h3]

/-- Witness for C4: the empty directory fails with the missing-orders error. -/
theorem C4_amended_required_sources_witness :
    LoadClean.load_sources ⟨[]⟩ = Except.error "No orders file found".toList :=
  (C4_amended_required_sources ⟨[]⟩ ⟨[]⟩).2.1 rfl

/-- Claim C5 (corrected).  A missing quantity is filled with 0, not with the
claimed default 1 (`fillna(0)` at `load_clean.py` lines 217-221 and
`analysis.py` line 189). -/
theorem C5_counterexample :
    LoadClean.cleanQuantity none = 0 ∧ (0 : ℤ) ≠ 1 := ⟨rfl, by decide⟩

/-- Claim C5 as amended: a missing (null/unparseable) quantity is assigned
the default 0 — not 1 — before the paid amount is computed, so such a row
contributes a paid amount of 0 whenever its price parses. -/
theorem C5_amended_quantity_default_zero :
    LoadClean.cleanQuantity none = 0 ∧
    (∀ z : ℤ, LoadClean.cleanQuantity (some z) = z) ∧
    (∀ p : ℚ, LoadClean.paid_price (LoadClean.cleanQuantity none) (some p) = some 0) := by
  refine ⟨rfl, fun z => rfl, fun p => ?_⟩
  simp [LoadClean.paid_price, LoadClean.cleanQuantity]

/-- Claim C6 (corrected).  The exclusion half is refuted by
`analysis.process_dataset`: for a one-order table whose only order has an
unparseable price (missing paid amount), `load_and_clean`'s grouping marks
the date's sum missing, but the analysis daily-revenue metric still lists
the date, zero-filled, and its top-5 even returns it as a top day. -/
theorem C6_counterexample :
    exRowA6.price = none ∧
    LoadClean.groupSumLC [exRowL6] 0 = none ∧
    Analysis.dailyRevA [exRowA6] = [(0, 0)] ∧
    Analysis.top5A [exRowA6] = [(0, 0)] := by
  refine ⟨rfl, rfl, ?_, ?_⟩
  · simp [Analysis.dailyRevA, Analysis.paidA, sortedDates, exRowA6,
      List.insertionSort, List.orderedInsert]
  · simp [Analysis.top5A, Analysis.dailyRevA, Analysis.paidA, sortedDates, exRowA6,
      List.insertionSort, List.orderedInsert]

/-- Claim C6 as amended: in `load_clean.load_and_clean` the claim holds —
dates whose every order lacks a paid amount are excluded, the top-days list
has at most 5 rows, is sorted descending by revenue, and has exactly
`min 5 (number of valid dates)` rows; in `analysis.process_dataset`,
however, every distinct date of the table appears zero-filled (none is
excluded), and its top-5 draws from all dates. -/
theorem C6_amended_daily_revenue_top5 (rows : List LoadClean.Row)
    (rowsA : List Analysis.RowA) (d : ℕ) :
    (LoadClean.groupSumLC rows d = none →
      ∀ v, (d, v) ∉ LoadClean.validPairs rows) ∧
    (LoadClean.top5LC rows).length ≤ 5 ∧
    List.Sorted descRev (LoadClean.top5LC rows) ∧
    (LoadClean.top5LC rows).length = min 5 (LoadClean.validPairs rows).length ∧
    (Analysis.dailyRevA rowsA).map Prod.fst
      = sortedDates (rowsA.map Analysis.RowA.date) ∧
    (Analysis.top5A rowsA).length ≤ 5 ∧
    List.Sorted descRev (Analysis.top5A rowsA) := by
  refine ⟨?_, ?_, ?_, ?_, ?_, ?_, ?_⟩
  · intro h v hmem
    rcases List.mem_filterMap.mp hmem with ⟨a, _, hmap⟩
    rcases Option.map_eq_some'.mp hmap with ⟨w, hw, heq⟩
    have had : a = d := ((Prod.mk.injEq a w d v).mp heq).1
    subst had
    rw [h] at hw
    exact Option.noConfusion hw
  · rw [LoadClean.top5LC, List.length_take]
    exact min_le_left _ _
  · exact List.Pairwise.sublist (List.take_sublist 5 _)
      (List.sorted_insertionSort descRev _)
  · rw [LoadClean.top5LC, List.length_take, List.length_insertionSort]
  · simp [Analysis.dailyRevA, List.map_map, Function.comp_def]
  · rw [Analysis.top5A, List.length_take]
    exact min_le_left _ _
  · exact List.Pairwise.sublist (List.take_sublist 5 _)
      (List.sorted_insertionSort descRev _)

/-- Witness for C6: on the empty table, date 0 has a missing sum and is
excluded from the valid daily-revenue pairs. -/
theorem C6_amended_daily_revenue_top5_witness :
    ((0 : ℕ), (0 : ℚ)) ∉ LoadClean.validPairs [] :=
  (C6_amended_daily_revenue_top5 [] [] 0).1 rfl 0

/-- Claim C7 (corrected).  The claimed sorted/semicolon-joined author-set
label is refuted in `load_clean.load_books`: its `author_set` is merely the
stripped raw text, so `"B, A"` keeps its comma and order instead of
normalising to `"A; B"` (which `analysis._normalize_authors` does produce). -/
theorem C7_counterexample :
    LoadClean.author_set (some "B, A".toList) = some "B, A".toList ∧
    Analysis.normalize_authors "B, A".toList = some "A; B".toList ∧
    "B, A".toList ≠ "A; B".toList := ⟨rfl, by decide, by decide⟩

/-- Claim C7 as amended: `analysis._normalize_authors` implements the
claimed rule — the label is the `"; "`-join of the strictly sorted (hence
de-duplicated) stripped parts obtained by splitting on comma, ampersand and
`" and "`, and the cited example normalises exactly as stated — whereas
`load_clean.load_books` derives `author_set` as just the stripped raw
author text, with no splitting, sorting or joining. -/
theorem C7_amended_author_set :
    Analysis.normalize_authors
        "Gino Welch, Haydee X, Rep. Heath Stiedemann".toList
      = some "Gino Welch; Haydee X; Rep. Heath Stiedemann".toList ∧
    (∀ author, List.Pairwise (fun a b => strLe a b ∧ a ≠ b)
      (Analysis.sortedDedupStr (Analysis.cleanParts (stripStr author)))) ∧
    (∀ author out, Analysis.normalize_authors author = some out →
      out = List.intercalate "; ".toList
        (Analysis.sortedDedupStr (Analysis.cleanParts (stripStr author)))) := by
  refine ⟨by decide, ?_, ?_⟩
  · intro author
    have hs : List.Sorted strLe
        (Analysis.sortedDedupStr (Analysis.cleanParts (stripStr author))) :=
      List.sorted_insertionSort strLe _
    have hn : (Analysis.sortedDedupStr (Analysis.cleanParts (stripStr author))).Nodup :=
      (List.perm_insertionSort strLe _).symm.nodup (List.nodup_dedup _)
    exact List.Pairwise.and hs hn
  · intro author out h
    simp only [Analysis.normalize_authors] at h
    cases hb : (stripStr author).isEmpty <;> rw [hb] at h
    case false =>
      cases hn2 : (Analysis.sortedDedupStr (Analysis.cleanParts (stripStr author))).isEmpty <;>
          rw [hn2] at h
      case false =>
        simp at h
        exact h.symm
      case true => simp at h
    case true => simp at h

/-- Witness for C7: the normalisation rule applied at `"B and A"`. -/
theorem C7_amended_author_set_witness :
    "A; B".toList = List.intercalate "; ".toList
      (Analysis.sortedDedupStr (Analysis.cleanParts (stripStr "B and A".toList))) :=
  C7_amended_author_set.2.2 "B and A".toList "A; B".toList (by decide)

/-- Claim C8 (corrected).  The alias list `load_and_clean` records is the
distinct ids in order of first appearance, not the sorted set: with the
directory mapping both ids to `a@x.com` and the order rows appearing as id 2
then id 1, the recorded list is `["2", "1"]`, which is not sorted. -/
theorem C8_counterexample :
    LoadClean.aliasesLC [exRowL8a, exRowL8b] "a@x.com".toList
      = ["2".toList, "1".toList] ∧
    ¬ List.Sorted strLe ["2".toList, "1".toList] := by
  refine ⟨rfl, fun hs => ?_⟩
  have h2 := List.rel_of_sorted_cons hs "1".toList (List.mem_cons_self _ _)
  exact absurd h2 (by decide)

/-- Claim C8 as amended: the canonical-key half of the claim holds — the key
is the directory's secondary identifier when present and non-missing,
otherwise the stringified raw identifier, and in particular ids 1 and 2 of
the claim's directory both resolve to `a@x.com`; the alias half holds only
in `analysis.process_dataset`, whose alias list is the sorted, duplicate-free
list of all raw ids observed for the key — `load_clean` records the same set
but in first-appearance order (see the counterexample). -/
theorem C8_amended_identity_resolver (dir : List (Str × Option Str)) (uid : Str)
    (rows : List Analysis.RowA) (k : Str) :
    (∀ e, LoadClean.lookupEmail dir uid = some e →
      LoadClean.user_key true dir uid = e) ∧
    (LoadClean.lookupEmail dir uid = none → LoadClean.user_key true dir uid = uid) ∧
    LoadClean.user_key false dir uid = uid ∧
    List.Sorted strLe (Analysis.aliasesSortedA rows k) ∧
    (∀ a, a ∈ Analysis.aliasesSortedA rows k ↔
      a ∈ (rows.filter fun r => r.key == k).map Analysis.RowA.uid) ∧
    (Analysis.aliasesSortedA rows k).Nodup ∧
    LoadClean.user_key true exDir8 "1".toList = "a@x.com".toList ∧
    LoadClean.user_key true exDir8 "2".toList = "a@x.com".toList ∧
    Analysis.aliasesSortedA [exRowA8a, exRowA8b] "a@x.com".toList
      = ["1".toList, "2".toList] := by
  refine ⟨?_, ?_, rfl, ?_, ?_, ?_, rfl, rfl, by decide⟩
  · intro e h
    simp [LoadClean.user_key, h]
  · intro h
    simp [LoadClean.user_key, h]
  · exact List.sorted_insertionSort strLe _
  · intro a
    unfold Analysis.aliasesSortedA
    rw [List.mem_insertionSort]
    exact mem_pdUnique a _
  · exact (List.perm_insertionSort strLe _).symm.nodup (nodup_pdUnique _)

/-- Witness for C8: the key choice evaluated on the claim's directory at
raw id 1. -/
theorem C8_amended_identity_resolver_witness :
    LoadClean.user_key true exDir8 "1".toList = "a@x.com".toList :=
  (C8_amended_identity_resolver exDir8 "1".toList [] []).1 "a@x.com".toList rfl

/-- Claim C9 (corrected).  Best-buyer selection in `load_and_clean` is *not*
stable under row reordering: swapping two orders of the same buyer swaps the
recorded alias list (`["1", "2"]` versus `["2", "1"]`), because the aliases
are listed in order of first appearance. -/
theorem C9_counterexample :
    List.Perm [exRowL9b, exRowL9a] [exRowL9a, exRowL9b] ∧
    (LoadClean.bestBuyerLC [exRowL9a, exRowL9b]).map (fun b => b.2.2)
      = some ["1".toList, "2".toList] ∧
    (LoadClean.bestBuyerLC [exRowL9b, exRowL9a]).map (fun b => b.2.2)
      = some ["2".toList, "1".toList] ∧
    (["1".toList, "2".toList] : List Str) ≠ ["2".toList, "1".toList] :=
  ⟨List.Perm.swap exRowL9a exRowL9b [], rfl, rfl, by decide⟩

/-- Claim C9 as amended (in the exact-rational idealisation of float
arithmetic): `analysis.process_dataset`'s best-buyer computation is fully
stable under row permutation — key, revenue and (sorted) alias list — while
`load_and_clean`'s is stable only in its selected key and revenue, the alias
list being order-dependent (see the counterexample). -/
theorem C9_amended_best_buyer_stability (rows rows' : List Analysis.RowA)
    (lrows lrows' : List LoadClean.Row)
    (h : List.Perm rows rows') (hl : List.Perm lrows lrows') :
    Analysis.bestBuyerA rows = Analysis.bestBuyerA rows' ∧
    (LoadClean.bestBuyerLC lrows).map (fun b => (b.1, b.2.1))
      = (LoadClean.bestBuyerLC lrows').map (fun b => (b.1, b.2.1)) := by
  constructor
  · unfold Analysis.bestBuyerA
    rw [buyerRevA_perm_eq h]
    cases List.insertionSort descRev (Analysis.buyerRevA rows') with
    | nil => rfl
    | cons kv tl => simp [aliasesSortedA_perm_eq h kv.1]
  · unfold LoadClean.bestBuyerLC
    rw [buyerRevLC_perm_eq hl]
    cases List.insertionSort descRev (LoadClean.buyerRevLC lrows') with
    | nil => rfl
    | cons kv tl => rfl

/-- Witness for C9: stability evaluated on a concrete two-row swap. -/
theorem C9_amended_best_buyer_stability_witness :
    Analysis.bestBuyerA [exRowA9a, exRowA9b]
      = Analysis.bestBuyerA [exRowA9b, exRowA9a] ∧
    (LoadClean.bestBuyerLC [exRowL9a, exRowL9b]).map (fun b => (b.1, b.2.1))
      = (LoadClean.bestBuyerLC [exRowL9b, exRowL9a]).map (fun b => (b.1, b.2.1)) :=
  C9_amended_best_buyer_stability _ _ _ _
    (List.Perm.swap exRowA9b exRowA9a []) (List.Perm.swap exRowL9b exRowL9a [])

/-- Claim C10 (confirmed).  Whenever `load_and_clean` succeeds it returns a
dict of named results, and `process_dataset` immediately evaluates
`"timestamp" in df.columns` on that dict — an attribute access a dict does
not support — so it raises `AttributeError` and never returns metrics. -/
theorem C10_process_dataset_raises (d : LoadClean.Dir) (t : LoadClean.OrdersTable)
    (r : LoadClean.PyVal) (h : LoadClean.load_and_clean_ret d t = Except.ok r) :
    Analysis.process_dataset d t = Except.error "AttributeError".toList := by
  have hr : r = LoadClean.PyVal.pyDict LoadClean.resultKeys := by
    unfold LoadClean.load_and_clean_ret at h
    cases h1 : LoadClean.load_sources d with
    | error e => rw [h1] at h; exact Except.noConfusion h
    | ok p =>
      rw [h1] at h
      by_cases h2 : LoadClean.requiredCols.all (fun c => t.cols.contains c) = true
      · rw [if_pos h2] at h
        exact (Except.ok.injEq _ _).mp h |>.symm
      · rw [if_neg h2] at h
        exact Except.noConfusion h
  subst hr
  unfold Analysis.process_dataset
  rw [h]
  rfl

/-- Witness for C10: a directory and schema on which the load succeeds, and
`process_dataset` still errors. -/
theorem C10_process_dataset_raises_witness :
    Analysis.process_dataset ⟨["orders.csv".toList, "users.csv".toList]⟩
      ⟨LoadClean.requiredCols⟩ = Except.error "AttributeError".toList :=
  C10_process_dataset_raises _ _ (LoadClean.PyVal.pyDict LoadClean.resultKeys) rfl
